import Mathlib

/-
  Verification development for the sunday-daft-thinking repository.

  The repository contains two scripts:
  - gentext.py: a 2D layered text-effect compositor (chrome/bevel text,
    offset black shadow, rainbow-gradient glow text) combined over a solid
    black background with global contrast/saturation post-processing.
  - some_gl.py: a 3D viewer whose texture loaders fetch images from a URL
    or a local file and fall back to procedurally generated textures on
    any failure.

  The embedding models raster images as total pixel functions with exact
  rational channel values (the ideal-arithmetic model of the imaging
  library integer operations), and models the opaque library services
  (font rasterization, network fetch, file open, image decode, blur,
  resize) as explicit function parameters.  Text stamping follows the
  Pillow ImageDraw write semantics on an RGBA canvas: each draw writes the
  ink interpolated by the glyph coverage into all four channels, replacing
  earlier content at fully covered pixels; the source-over stamp semantics
  asserted by parts of the specification is defined separately, for
  comparison with what the code does.
-/

namespace DaftPunk

/-- An RGBA pixel sample; channels range over 0..255 (alpha 255 = opaque),
represented exactly as rationals. -/
structure RGBA where
  r : ℚ
  g : ℚ
  b : ℚ
  a : ℚ
deriving DecidableEq

/-- An RGB pixel sample (no alpha channel). -/
structure RGB where
  r : ℚ
  g : ℚ
  b : ℚ
deriving DecidableEq

/-- The fully transparent pixel. -/
def clear : RGBA := ⟨0, 0, 0, 0⟩

/-- Resulting alpha fraction (0..1 scale) of source-over compositing a pixel
of alpha qa (0..255) over a pixel of alpha pa (0..255). -/
def outAlpha (pa qa : ℚ) : ℚ :=
  qa / 255 + pa / 255 * (1 - qa / 255)

/-- Standard source-over alpha compositing of pixel q over pixel p
(the semantics of the imaging library alpha_composite). -/
def overPix (p q : RGBA) : RGBA :=
  if outAlpha p.a q.a = 0 then clear
  else
    ⟨(q.r * (q.a / 255) + p.r * (p.a / 255) * (1 - q.a / 255)) / outAlpha p.a q.a,
     (q.g * (q.a / 255) + p.g * (p.a / 255) * (1 - q.a / 255)) / outAlpha p.a q.a,
     (q.b * (q.a / 255) + p.b * (p.a / 255) * (1 - q.a / 255)) / outAlpha p.a q.a,
     255 * outAlpha p.a q.a⟩

/-- An RGBA raster image: dimensions plus a total pixel function
(values outside the 0..width-1 x 0..height-1 box are irrelevant). -/
structure Img where
  width : ℕ
  height : ℕ
  pix : ℤ → ℤ → RGBA

/-- An RGB raster image (no alpha channel). -/
structure ImgRGB where
  width : ℕ
  height : ℕ
  pix : ℤ → ℤ → RGB

/-- Image.new with mode RGBA and a fully transparent background. -/
def newRGBA (w h : ℕ) : Img := ⟨w, h, fun _ _ => clear⟩

/-- Image.crop with box (l, t, r, b). -/
def cropImg (img : Img) (l t r b : ℤ) : Img :=
  ⟨(r - l).toNat, (b - t).toNat, fun X Y => img.pix (X + l) (Y + t)⟩

/-- Image.alpha_composite: source-over compositing of the second image over
the first, pointwise; dimensions are those of the base image. -/
def alphaComposite (below above : Img) : Img :=
  ⟨below.width, below.height, fun X Y => overPix (below.pix X Y) (above.pix X Y)⟩

/-- The per-pixel effect of one Pillow draw call on an RGBA image: every
channel, the alpha channel included, is interpolated between the existing
pixel p and the ink c by the glyph coverage m, so at a fully covered pixel
the ink replaces the previous content outright (no alpha blending against
what was drawn before). -/
def writePix (p c : RGBA) (m : ℚ) : RGBA :=
  ⟨p.r + m * (c.r - p.r), p.g + m * (c.g - p.g),
   p.b + m * (c.b - p.b), p.a + m * (c.a - p.a)⟩

/-- One draw.text call: stamp the rasterized text at position (px, py) with
ink color c onto img.  cov d e is the glyph coverage fraction (0..1) of the
rasterized text at offset (d, e) from the stamp origin; each pixel is
written with the ink interpolated by the coverage. -/
def drawText (cov : ℤ → ℤ → ℚ) (px py : ℤ) (c : RGBA) (img : Img) : Img :=
  ⟨img.width, img.height, fun X Y =>
    writePix (img.pix X Y) c (cov (X - px) (Y - py))⟩

/-- One stamp descriptor: pixel offset from the base text position plus ink. -/
structure Stamp where
  dx : ℤ
  dy : ℤ
  ink : RGBA
deriving DecidableEq

/-- Apply a list of stamps in order, each one a draw.text at the base
position (bx, py0) shifted by the stamp offset. -/
def applyStamps (cov : ℤ → ℤ → ℚ) (bx py0 : ℤ) (img : Img) : List Stamp → Img
  | [] => img
  | s :: ss => applyStamps cov bx py0 (drawText cov (bx + s.dx) (py0 + s.dy) s.ink img) ss

/-- The glyph-neighborhood offset enumeration shared by the glow loops of
gentext.py: for offset in range(1, n+1), for dx in [-offset, 0, offset],
for dy in [-offset, 0, offset], emit (dx, dy) unless dx = 0 and dy = 0. -/
def glowOffsets (n : ℕ) : List (ℤ × ℤ) :=
  (List.range n).flatMap fun i =>
    letI o : ℤ := (i : ℤ) + 1
    [-o, 0, o].flatMap fun dx =>
      [-o, 0, o].flatMap fun dy =>
        if dx = 0 ∧ dy = 0 then [] else [(dx, dy)]

/-- The inner-glow stamps of create_chrome_text_with_bevel: the 1..4
neighborhood offsets in low-alpha black (0, 0, 0, 70). -/
def chromeGlowStamps : List Stamp :=
  (glowOffsets 4).map fun p => ⟨p.1, p.2, ⟨0, 0, 0, 70⟩⟩

/-- The complete ordered stamp sequence of create_chrome_text_with_bevel:
drop shadow at (+3, +5) in (0,0,0,200); inner glow; base chrome fill
(140,140,140,255) at zero offset; three top highlights; three bottom
shadows; two satin passes; three edge color hints; final bright top edge
highlight. -/
def chromeStamps : List Stamp :=
  ⟨3, 5, ⟨0, 0, 0, 200⟩⟩ ::
  chromeGlowStamps ++
  ⟨0, 0, ⟨140, 140, 140, 255⟩⟩ ::
  ⟨0, -3, ⟨255, 255, 255, 120⟩⟩ ::
  ⟨0, -2, ⟨240, 240, 240, 100⟩⟩ ::
  ⟨-1, -2, ⟨220, 220, 220, 80⟩⟩ ::
  ⟨1, 3, ⟨0, 0, 0, 80⟩⟩ ::
  ⟨0, 2, ⟨40, 40, 40, 60⟩⟩ ::
  ⟨2, 2, ⟨20, 20, 20, 40⟩⟩ ::
  ((List.range 2).map fun i => (⟨(i : ℤ) + 1, (i : ℤ) + 1, ⟨20, 30, 80, 100⟩⟩ : Stamp)) ++
  ⟨-1, 0, ⟨100, 255, 200, 30⟩⟩ ::
  ⟨1, 0, ⟨200, 100, 255, 30⟩⟩ ::
  ⟨0, -1, ⟨255, 200, 100, 25⟩⟩ ::
  [⟨0, -1, ⟨255, 255, 255, 140⟩⟩]

/-- The stamps of create_chrome_text_with_bevel that precede the base
chrome fill: the drop shadow followed by the inner glow. -/
def chromeHeadStamps : List Stamp :=
  ⟨3, 5, ⟨0, 0, 0, 200⟩⟩ :: chromeGlowStamps

/-- The stamps of create_chrome_text_with_bevel that follow the base
chrome fill: highlights, bottom shadows, satin, edge hints, final top
highlight. -/
def chromeTailStamps : List Stamp :=
  ⟨0, -3, ⟨255, 255, 255, 120⟩⟩ ::
  ⟨0, -2, ⟨240, 240, 240, 100⟩⟩ ::
  ⟨-1, -2, ⟨220, 220, 220, 80⟩⟩ ::
  ⟨1, 3, ⟨0, 0, 0, 80⟩⟩ ::
  ⟨0, 2, ⟨40, 40, 40, 60⟩⟩ ::
  ⟨2, 2, ⟨20, 20, 20, 40⟩⟩ ::
  ((List.range 2).map fun i => (⟨(i : ℤ) + 1, (i : ℤ) + 1, ⟨20, 30, 80, 100⟩⟩ : Stamp)) ++
  ⟨-1, 0, ⟨100, 255, 200, 30⟩⟩ ::
  ⟨1, 0, ⟨200, 100, 255, 30⟩⟩ ::
  ⟨0, -1, ⟨255, 200, 100, 25⟩⟩ ::
  [⟨0, -1, ⟨255, 255, 255, 140⟩⟩]

/-- The enlarged working surface of create_chrome_text_with_bevel: a
transparent RGBA canvas padded by effect_padding = 80 on each side, with
the full stamp sequence applied at the padded text position. -/
def chromeWorkSurface (cov : ℤ → ℤ → ℚ) (w h : ℕ) (x y : ℤ) : Img :=
  applyStamps cov (x + 80) (y + 80) (newRGBA (w + 160) (h + 160)) chromeStamps

/-- create_chrome_text_with_bevel: stamp on the padded surface, then crop
back to the original canvas size. -/
def create_chrome_text_with_bevel (cov : ℤ → ℤ → ℚ) (w h : ℕ) (x y : ℤ) : Img :=
  cropImg (chromeWorkSurface cov w h x y) 80 80 ((w : ℤ) + 80) ((h : ℤ) + 80)

/-- create_colored_shadow_layer: a fresh transparent canvas with the text
stamped once in fully opaque black at (text_x + 3, text_y + 3). -/
def create_colored_shadow_layer (cov : ℤ → ℤ → ℚ) (w h : ℕ) (x y : ℤ) : Img :=
  drawText cov (x + 3) (y + 3) ⟨0, 0, 0, 255⟩ (newRGBA w h)

/-- Python style int() conversion of a rational: truncation toward zero
(equals num / den with integer division since den is positive). -/
def pyInt (q : ℚ) : ℤ := q.num / (q.den : ℤ)

/-- The colorsys.hsv_to_rgb conversion, over exact rationals. -/
def hsv_to_rgb (h s v : ℚ) : ℚ × ℚ × ℚ :=
  if s = 0 then (v, v, v)
  else
    letI i : ℤ := pyInt (h * 6)
    letI f : ℚ := h * 6 - (i : ℚ)
    letI p : ℚ := v * (1 - s)
    letI q : ℚ := v * (1 - s * f)
    letI t : ℚ := v * (1 - s * (1 - f))
    letI j : ℤ := i % 6
    if j = 0 then (v, t, p)
    else if j = 1 then (q, v, p)
    else if j = 2 then (p, v, t)
    else if j = 3 then (q, p, v)
    else if j = 4 then (p, t, v)
    else (v, q, p)

/-- The column color of the rainbow gradient in
create_rainbow_colored_layer: hue = x / width, full saturation and value,
each channel scaled by 255 and truncated to an integer. -/
def rainbowGradientColor (w x : ℕ) : ℤ × ℤ × ℤ :=
  letI hue : ℚ := (x : ℚ) / (w : ℚ)
  letI rgb := hsv_to_rgb hue 1 1
  (pyInt (rgb.1 * 255), pyInt (rgb.2.1 * 255), pyInt (rgb.2.2 * 255))

/-- Interpret an integer color triple as an RGB pixel sample. -/
def rgbOfTriple (t : ℤ × ℤ × ℤ) : RGB := ⟨(t.1 : ℚ), (t.2.1 : ℚ), (t.2.2 : ℚ)⟩

/-- The full-canvas rainbow gradient: the loop of
create_rainbow_colored_layer assigns the column color to every row of the
column. -/
def rainbowGradient (w h : ℕ) : ImgRGB :=
  ⟨w, h, fun X _ => rgbOfTriple (rainbowGradientColor w X.toNat)⟩

/-- The masked rainbow text canvas: rainbow_canvas.paste with the stamped
text mask.  The mask is the text stamped at (text_x + 6, text_y + 6); the
paste copies each gradient pixel blended by the mask coverage onto the
fully transparent canvas (the pasted RGB gradient carries implicit alpha
255). -/
def rainbowMaskedText (cov : ℤ → ℤ → ℚ) (w h : ℕ) (x y : ℤ) : Img :=
  ⟨w, h, fun X Y =>
    letI m : ℚ := cov (X - (x + 6)) (Y - (y + 6))
    letI g : RGB := (rainbowGradient w h).pix X Y
    ⟨g.r * m, g.g * m, g.b * m, 255 * m⟩⟩

/-- One pass of the rainbow glow stamps: the 1..5 neighborhood offsets in
low-alpha white (255, 255, 255, 100). -/
def rainbowGlowPass : List Stamp :=
  (glowOffsets 5).map fun p => ⟨p.1, p.2, ⟨255, 255, 255, 100⟩⟩

/-- The full rainbow glow stamp sequence: the outer-glow loop followed by
the textually identical inner-glow loop. -/
def rainbowGlowStamps : List Stamp := rainbowGlowPass ++ rainbowGlowPass

/-- The glow canvas of create_rainbow_colored_layer: all glow stamps
applied at (text_x + 6, text_y + 6) on a fresh transparent canvas. -/
def rainbowGlowLayer (cov : ℤ → ℤ → ℚ) (w h : ℕ) (x y : ℤ) : Img :=
  applyStamps cov (x + 6) (y + 6) (newRGBA w h) rainbowGlowStamps

/-- create_rainbow_colored_layer: the masked gradient text composited over
the glow canvas with Image.alpha_composite. -/
def create_rainbow_colored_layer (cov : ℤ → ℤ → ℚ) (w h : ℕ) (x y : ℤ) : Img :=
  alphaComposite (rainbowGlowLayer cov w h x y) (rainbowMaskedText cov w h x y)

/-- setup_background: a pure black opaque RGB canvas. -/
def setup_background (w h : ℕ) : ImgRGB := ⟨w, h, fun _ _ => ⟨0, 0, 0⟩⟩

/-- Image.convert from RGB to RGBA: every pixel becomes fully opaque. -/
def toRGBA (img : ImgRGB) : Img :=
  ⟨img.width, img.height, fun X Y =>
    letI p := img.pix X Y
    ⟨p.r, p.g, p.b, 255⟩⟩

/-- The rainbow attenuation step of create_daft_punk_effect: split off the
alpha channel, apply ImageEnhance.Brightness with factor 7/10 to it
(brightness enhancement of a grayscale band multiplies every sample by the
factor), and put the attenuated band back as the alpha channel. -/
def scaleAlpha (factor : ℚ) (img : Img) : Img :=
  ⟨img.width, img.height, fun X Y =>
    letI p := img.pix X Y
    ⟨p.r, p.g, p.b, p.a * factor⟩⟩

/-- Image.convert from RGBA to RGB: the alpha channel is dropped. -/
def dropAlpha (img : Img) : ImgRGB :=
  ⟨img.width, img.height, fun X Y =>
    letI p := img.pix X Y
    ⟨p.r, p.g, p.b⟩⟩

/-- ITU-R 601-2 luma of an RGB sample, as used by the imaging library
grayscale conversion. -/
def grayLum (p : RGB) : ℚ := (p.r * 299 + p.g * 587 + p.b * 114) / 1000

/-- Mean grayscale value of an image, as used by the contrast enhancer. -/
def meanL (img : ImgRGB) : ℚ :=
  (∑ x ∈ Finset.range img.width, ∑ y ∈ Finset.range img.height,
      grayLum (img.pix (x : ℤ) (y : ℤ))) / ((img.width : ℚ) * (img.height : ℚ))

/-- ImageEnhance.Contrast: interpolate every pixel between the constant
mean-gray image (factor 0) and the original image (factor 1); factor 12/10
extrapolates past the original. -/
def contrastEnhance (factor : ℚ) (img : ImgRGB) : ImgRGB :=
  letI m := meanL img
  ⟨img.width, img.height, fun X Y =>
    letI p := img.pix X Y
    ⟨m + factor * (p.r - m), m + factor * (p.g - m), m + factor * (p.b - m)⟩⟩

/-- ImageEnhance.Color: interpolate every pixel between its own grayscale
value (factor 0) and the original color (factor 1); factor 13/10 boosts
saturation past the original. -/
def colorEnhance (factor : ℚ) (img : ImgRGB) : ImgRGB :=
  ⟨img.width, img.height, fun X Y =>
    letI p := img.pix X Y
    letI l := grayLum p
    ⟨l + factor * (p.r - l), l + factor * (p.g - l), l + factor * (p.b - l)⟩⟩

/-- The layer-combination section of create_daft_punk_effect (the steps
from the background conversion through the color enhancement): convert the
black background to RGBA, composite the alpha-attenuated rainbow layer,
then the black shadow layer, then the chrome layer, flatten to RGB, apply
contrast 12/10 and then color 13/10. -/
def combineLayers (background : ImgRGB) (chrome shadow rainbow : Img) : ImgRGB :=
  letI result0 := toRGBA background
  letI rainbowReduced := scaleAlpha (7 / 10) rainbow
  letI r1 := alphaComposite result0 rainbowReduced
  letI r2 := alphaComposite r1 shadow
  letI r3 := alphaComposite r2 chrome
  colorEnhance (13 / 10) (contrastEnhance (12 / 10) (dropAlpha r3))

/-- create_daft_punk_effect for a given rasterized text coverage and base
text position: build the black background and the three layers, then run
the combination section. -/
def create_daft_punk_effect (cov : ℤ → ℤ → ℚ) (w h : ℕ) (tx ty : ℤ) : ImgRGB :=
  letI background := setup_background w h
  letI chrome := create_chrome_text_with_bevel cov w h tx ty
  letI shadow := create_colored_shadow_layer cov w h tx ty
  letI rainbow := create_rainbow_colored_layer cov w h tx ty
  combineLayers background chrome shadow rainbow

/-- A font handle: either the imaging library built-in default font or a
truetype font loaded from a path at a size. -/
inductive Font where
  | defaultFont : Font
  | truetype : String → ℕ → Font
deriving DecidableEq

/-- load_font: if the path exists on the filesystem (oracle fs), attempt
the truetype load (oracle tload, whose error value models a raised
exception); a missing file or a caught exception logs a message and falls
back to the built-in default font.  The returned list is the log. -/
def load_font (fs : String → Bool) (tload : String → ℕ → Except String Unit)
    (path : String) (size : ℕ) : List String × Font :=
  if fs path then
    match tload path size with
    | Except.ok _ => ([], Font.truetype path size)
    | Except.error e => (["Error loading font: " ++ e], Font.defaultFont)
  else
    (["Font file " ++ path ++ " not found, using default font"], Font.defaultFont)

/-- A stream of pseudo-random values, modelling the ambient numpy random
state of the process. -/
def RNG : Type := ℕ → ℕ

/-- The raw random array of generate_noise_texture: independent byte
samples per pixel channel drawn from the random stream. -/
def noiseArray (rng : RNG) (w h : ℕ) : ImgRGB :=
  ⟨w, h, fun X Y =>
    letI k := 3 * (Y.toNat * w + X.toNat)
    ⟨((rng k % 256 : ℕ) : ℚ), ((rng (k + 1) % 256 : ℕ) : ℚ), ((rng (k + 2) % 256 : ℕ) : ℚ)⟩⟩

/-- generate_noise_texture: the random array smoothed by a Gaussian blur of
radius 2 (the blur is an opaque library service, passed as a parameter). -/
def generate_noise_texture (blur : ImgRGB → ℚ → ImgRGB) (rng : RNG) (w h : ℕ) : ImgRGB :=
  blur (noiseArray rng w h) 2

/-- The full create_daft_punk_effect entry point: load the font (size 100),
measure the text bounding box (oracle bbox, returning (left, top, right,
bottom)), center the text on the canvas with floor division, and run the
effect.  The ambient random stream rng is in scope but the text pipeline
never consumes it (randomness is only used by generate_noise_texture,
reachable only from the unused load_texture fallback). -/
def run_daft_punk_effect (rng : RNG) (fs : String → Bool)
    (tload : String → ℕ → Except String Unit)
    (raster : Font → ℤ → ℤ → ℚ) (bbox : Font → ℤ × ℤ × ℤ × ℤ)
    (w h : ℕ) (fontPath : String) : ImgRGB :=
  letI font := (load_font fs tload fontPath 100).2
  letI bb := bbox font
  letI textWidth := bb.2.2.1 - bb.1
  letI textHeight := bb.2.2.2 - bb.2.1
  letI tx := Int.fdiv ((w : ℤ) - textWidth) 2
  letI ty := Int.fdiv ((h : ℤ) - textHeight) 2
  create_daft_punk_effect (raster font) w h tx ty

/-
  Model of the texture loaders of some_gl.py.  Network fetch plus decode
  and local file open plus decode are opaque services modelled as oracles
  returning either a decoded raster image or a raised exception.
-/

/-- A decoded raster image as produced by the image decode service. -/
structure RawImg where
  iw : ℕ
  ih : ℕ
  ipix : ℤ → ℤ → RGBA

/-- Python str.startswith on character lists: strStarts pre s is true when
pre is an initial segment of s. -/
def strStarts : List Char → List Char → Bool
  | [], _ => true
  | _ :: _, [] => false
  | a :: as, b :: bs => if a = b then strStarts as bs else false

/-- The URL scheme marker checked by load_texture. -/
def httpColon : List Char := ['h', 't', 't', 'p', ':']

/-- The URL scheme marker checked by load_env_texture. -/
def httpsColon : List Char := ['h', 't', 't', 'p', 's', ':']

/-- Uploading a decoded RGBA image as a GL texture keeps its dimensions and
pixels (the GL calls are opaque; the texture object is identified with its
pixel data). -/
def uploadTex (img : RawImg) : RawImg := img

/-- The procedurally generated fallback of load_texture: a 256 by 256 solid
red RGBA texture. -/
def fallback_texture : RawImg := ⟨256, 256, fun _ _ => ⟨255, 0, 0, 255⟩⟩

/-- An environment-map texture: 3-channel, as uploaded with GL_RGB. -/
structure EnvTex where
  ew : ℕ
  eh : ℕ
  epix : ℤ → ℤ → RGB

/-- Uploading the environment map: the image is converted to RGB and
resized to 512 by 512 (the resampling is an opaque service, passed as the
resize parameter by the caller). -/
def uploadEnv (img : RawImg) : EnvTex :=
  ⟨512, 512, fun X Y =>
    letI p := img.ipix X Y
    ⟨p.r, p.g, p.b⟩⟩

/-- The procedurally generated fallback of load_env_texture: a 512 by 512
gradient with pixel (x, y) equal to (x // 2, y // 2, 128). -/
def env_fallback_texture : EnvTex :=
  ⟨512, 512, fun X Y => ⟨((X.toNat / 2 : ℕ) : ℚ), ((Y.toNat / 2 : ℕ) : ℚ), 128⟩⟩

/-- The body of the try block of load_texture: fetch from the network when
the path starts with "http:", otherwise open the local file; then convert
to RGBA and upload.  An error value models an exception raised anywhere in
the block. -/
def load_texture_attempt (net fsOpen : List Char → Except String RawImg)
    (path : List Char) : Except String RawImg :=
  match (if strStarts httpColon path then net path else fsOpen path) with
  | Except.ok img => Except.ok (uploadTex img)
  | Except.error e => Except.error e

/-- load_texture: run the try block; any exception is caught, logged, and
replaced by the solid red fallback texture.  The returned list is the log;
the function itself never raises. -/
def load_texture (net fsOpen : List Char → Except String RawImg)
    (path : List Char) : List String × RawImg :=
  match load_texture_attempt net fsOpen path with
  | Except.ok t => ([], t)
  | Except.error e =>
      (["Failed to load texture from " ++ String.mk path ++ ": " ++ e ++ ", using fallback."],
       fallback_texture)

/-- The body of the try block of load_env_texture: fetch from the network
when the path starts with "https:", otherwise open the local file; then
convert to RGB, resize to 512 by 512 and upload. -/
def load_env_texture_attempt (net fsOpen : List Char → Except String RawImg)
    (resize : RawImg → RawImg) (path : List Char) : Except String EnvTex :=
  match (if strStarts httpsColon path then net path else fsOpen path) with
  | Except.ok img => Except.ok (uploadEnv (resize img))
  | Except.error e => Except.error e

/-- load_env_texture: run the try block; any exception is caught, logged,
and replaced by the procedural gradient fallback texture. -/
def load_env_texture (net fsOpen : List Char → Except String RawImg)
    (resize : RawImg → RawImg) (path : List Char) : List String × EnvTex :=
  match load_env_texture_attempt net fsOpen resize path with
  | Except.ok t => ([], t)
  | Except.error e =>
      (["Failed to load environment texture from URL: " ++ e ++ ", using fallback."],
       env_fallback_texture)

/-
  Specification-side definitions, written from the wording of the claims,
  to be compared with the definitions translated from the source.
-/

/-- The offset neighborhood described by the specification: all pairs
(dx, dy) with dx and dy drawn from the three-element set of -m, 0 and m
for some magnitude m between 1 and n, excluding the center (0, 0). -/
def specNbhd (n : ℤ) : Finset (ℤ × ℤ) :=
  (Finset.Icc 1 n).biUnion fun m =>
    (({-m, 0, m} : Finset ℤ) ×ˢ ({-m, 0, m} : Finset ℤ)).erase (0, 0)

/-- The hue assigned to column x of the rainbow gradient: x / width. -/
def rainbowHue (w x : ℕ) : ℚ := (x : ℚ) / (w : ℚ)

/-- The column color described by the specification: HSVtoRGB with
hue = x / width, saturation 1 and value 1, each channel scaled to an
integer in 0..255. -/
def specRainbowColumnColor (w x : ℕ) : ℤ × ℤ × ℤ :=
  letI rgb := hsv_to_rgb (rainbowHue w x) 1 1
  (pyInt (rgb.1 * 255), pyInt (rgb.2.1 * 255), pyInt (rgb.2.2 * 255))

/-- The stamp semantics asserted by the specification and the claims: the
ink, at its own alpha scaled by the glyph coverage, composited source-over
onto the accumulating pixel. -/
def overStampPix (p c : RGBA) (m : ℚ) : RGBA :=
  overPix p ⟨c.r, c.g, c.b, c.a * m⟩

/-- Modelled on the claim wording: one text stamp applied by source-over
blending at its own alpha (instead of the write semantics of drawText). -/
def drawTextOver (cov : ℤ → ℤ → ℚ) (px py : ℤ) (c : RGBA) (img : Img) : Img :=
  ⟨img.width, img.height, fun X Y =>
    overStampPix (img.pix X Y) c (cov (X - px) (Y - py))⟩

/-- Modelled on the claim wording: a stamp sequence composited in over
order, each stamp blended over the earlier ones at its own alpha. -/
def applyStampsOver (cov : ℤ → ℤ → ℚ) (bx py0 : ℤ) (img : Img) : List Stamp → Img
  | [] => img
  | s :: ss =>
      applyStampsOver cov bx py0 (drawTextOver cov (bx + s.dx) (py0 + s.dy) s.ink img) ss

/-- Modelled on the claim wording: the rainbow glow canvas built by
compositing the glow stamp sequence in over order, for comparison with the
glow canvas the code builds. -/
def specGlowLayerOver (cov : ℤ → ℤ → ℚ) (w h : ℕ) (x y : ℤ) : Img :=
  applyStampsOver cov (x + 6) (y + 6) (newRGBA w h) rainbowGlowStamps

/-- Modelled on the claim wording: the chrome working surface built by
compositing the chrome stamp sequence in over order, for comparison with
the surface the code builds. -/
def specChromeSurfaceOver (cov : ℤ → ℤ → ℚ) (w h : ℕ) (x y : ℤ) : Img :=
  applyStampsOver cov (x + 80) (y + 80) (newRGBA (w + 160) (h + 160)) chromeStamps

/-
  Helper lemmas.
-/

lemma outAlpha_full_base (qa : ℚ) : outAlpha 255 qa = 1 := by
  unfold outAlpha
  have h : (255 : ℚ) / 255 = 1 := by norm_num
  rw [h]
  ring

lemma overPix_full_base (p q : RGBA) (hp : p.a = 255) : (overPix p q).a = 255 := by
  unfold overPix
  rw [hp, outAlpha_full_base]
  norm_num [clear]

lemma overPix_src_full (p q : RGBA) (hq : q.a = 255) : (overPix p q).a = 255 := by
  have h1 : outAlpha p.a q.a = 1 := by
    unfold outAlpha
    rw [hq]
    norm_num
  unfold overPix
  rw [h1, hq]
  norm_num [clear]

lemma writePix_zero (p c : RGBA) : writePix p c 0 = p := by
  simp [writePix]

lemma writePix_one (p c : RGBA) : writePix p c 1 = c := by
  cases p with
  | mk pr pg pb pa =>
    cases c with
    | mk cr cg cb ca =>
      simp only [writePix, RGBA.mk.injEq]
      refine ⟨by ring, by ring, by ring, by ring⟩

lemma applyStamps_pix (cov : ℤ → ℤ → ℚ) (bx py0 : ℤ) (ss : List Stamp) :
    ∀ (img : Img) (X Y : ℤ),
      (applyStamps cov bx py0 img ss).pix X Y =
        ss.foldl
          (fun p s => writePix p s.ink (cov (X - (bx + s.dx)) (Y - (py0 + s.dy))))
          (img.pix X Y) := by
  induction ss with
  | nil => intro img X Y; rfl
  | cons s t ih =>
      intro img X Y
      rw [applyStamps, ih]
      rfl

lemma applyStampsOver_pix (cov : ℤ → ℤ → ℚ) (bx py0 : ℤ) (ss : List Stamp) :
    ∀ (img : Img) (X Y : ℤ),
      (applyStampsOver cov bx py0 img ss).pix X Y =
        ss.foldl
          (fun p s => overStampPix p s.ink (cov (X - (bx + s.dx)) (Y - (py0 + s.dy))))
          (img.pix X Y) := by
  induction ss with
  | nil => intro img X Y; rfl
  | cons s t ih =>
      intro img X Y
      rw [applyStampsOver, ih]
      rfl

lemma overStampPix_white_alpha (p : RGBA) (hp : 0 ≤ p.a) :
    (overStampPix p ⟨255, 255, 255, 100⟩ 1).a = 100 + p.a * (31 / 51) := by
  have h1 : outAlpha p.a ((100 : ℚ) * 1) = (100 + p.a * (31 / 51)) / 255 := by
    unfold outAlpha
    ring
  have hnn : 0 ≤ p.a * (31 / 51) := mul_nonneg hp (by norm_num)
  have h2 : outAlpha p.a ((100 : ℚ) * 1) ≠ 0 := by
    rw [h1]
    intro h0
    rw [div_eq_zero_iff] at h0
    rcases h0 with h0 | h0
    · linarith
    · norm_num at h0
  unfold overStampPix overPix
  dsimp only
  rw [if_neg h2, h1]
  ring

lemma over_white_fold_alpha (ss : List Stamp) :
    (∀ s ∈ ss, s.ink = ⟨255, 255, 255, 100⟩) →
    ∀ p : RGBA, 100 ≤ p.a → p.a ≤ 255 →
      ((ss.foldl (fun q s => overStampPix q s.ink 1) p).a ≤ 255
        ∧ 100 ≤ (ss.foldl (fun q s => overStampPix q s.ink 1) p).a)
      ∧ (ss ≠ [] → 160 ≤ (ss.foldl (fun q s => overStampPix q s.ink 1) p).a) := by
  induction ss with
  | nil =>
      intro _ p h1 h2
      exact ⟨⟨h2, h1⟩, fun hne => absurd rfl hne⟩
  | cons s t ih =>
      intro hss p h1 h2
      have hs : s.ink = ⟨255, 255, 255, 100⟩ := hss s (List.mem_cons_self s t)
      have ht : ∀ u ∈ t, u.ink = ⟨255, 255, 255, 100⟩ :=
        fun u hu => hss u (List.mem_cons_of_mem s hu)
      have hstep : (overStampPix p s.ink 1).a = 100 + p.a * (31 / 51) := by
        rw [hs]
        exact overStampPix_white_alpha p (by linarith)
      have hmul1 := mul_le_mul_of_nonneg_right h1 (by norm_num : (0 : ℚ) ≤ 31 / 51)
      have hmul2 := mul_le_mul_of_nonneg_right h2 (by norm_num : (0 : ℚ) ≤ 31 / 51)
      have hlow : 160 ≤ (overStampPix p s.ink 1).a := by rw [hstep]; linarith
      have hup : (overStampPix p s.ink 1).a ≤ 255 := by rw [hstep]; linarith
      have h100 : 100 ≤ (overStampPix p s.ink 1).a := by linarith
      rw [List.foldl_cons]
      rcases eq_or_ne t [] with ht0 | htne
      · subst ht0
        exact ⟨⟨hup, h100⟩, fun _ => hlow⟩
      · obtain ⟨⟨u1, u2⟩, u3⟩ := ih ht (overStampPix p s.ink 1) h100 hup
        exact ⟨⟨u1, u2⟩, fun _ => u3 htne⟩

lemma foldl_overStamp_keeps_full (ss : List Stamp) :
    ∀ p : RGBA, p.a = 255 →
      (ss.foldl (fun q s => overStampPix q s.ink 1) p).a = 255 := by
  induction ss with
  | nil => intro p hp; exact hp
  | cons s t ih =>
      intro p hp
      rw [List.foldl_cons]
      apply ih
      exact overPix_full_base p _ hp

lemma chromeStamps_split :
    chromeStamps = chromeHeadStamps ++ ⟨0, 0, ⟨140, 140, 140, 255⟩⟩ :: chromeTailStamps := rfl

lemma applyStamps_width (cov : ℤ → ℤ → ℚ) (bx py0 : ℤ) (img : Img) (ss : List Stamp) :
    (applyStamps cov bx py0 img ss).width = img.width := by
  induction ss generalizing img with
  | nil => rfl
  | cons s ss ih => simpa [applyStamps, drawText] using ih _

lemma applyStamps_height (cov : ℤ → ℤ → ℚ) (bx py0 : ℤ) (img : Img) (ss : List Stamp) :
    (applyStamps cov bx py0 img ss).height = img.height := by
  induction ss generalizing img with
  | nil => rfl
  | cons s ss ih => simpa [applyStamps, drawText] using ih _

lemma strStarts_https_not_http (rest : List Char) :
    strStarts httpColon (httpsColon ++ rest) = false := rfl

lemma strStarts_http_not_https (rest : List Char) :
    strStarts httpsColon (httpColon ++ rest) = false := rfl

/-
  The claim theorems.
-/

/-- Claim C1: for every text, font, and base position,
create_daft_punk_effect composites onto the solid-black background in the
fixed back-to-front order rainbow layer (alpha first attenuated to 70
percent of its original value), then offset shadow layer, then
chrome/bevel layer, each step source-over alpha blending; afterwards the
result is flattened to opaque RGB (the composite under the flattening is
opaque at every pixel) and a contrast boost of 12/10 followed by a
color/saturation boost of 13/10 is applied. -/
theorem daft_punk_assembly_spec (cov : ℤ → ℤ → ℚ) (w h : ℕ) (tx ty : ℤ) :
    create_daft_punk_effect cov w h tx ty =
      colorEnhance (13 / 10) (contrastEnhance (12 / 10) (dropAlpha
        (alphaComposite (alphaComposite (alphaComposite
          (toRGBA (setup_background w h))
          (scaleAlpha (7 / 10) (create_rainbow_colored_layer cov w h tx ty)))
          (create_colored_shadow_layer cov w h tx ty))
          (create_chrome_text_with_bevel cov w h tx ty))))
  ∧ (∀ L : Img, ∀ X Y : ℤ, (scaleAlpha (7 / 10) L).pix X Y =
      ⟨(L.pix X Y).r, (L.pix X Y).g, (L.pix X Y).b, (L.pix X Y).a * (7 / 10)⟩)
  ∧ (∀ X Y : ℤ,
      ((alphaComposite (alphaComposite (alphaComposite
          (toRGBA (setup_background w h))
          (scaleAlpha (7 / 10) (create_rainbow_colored_layer cov w h tx ty)))
          (create_colored_shadow_layer cov w h tx ty))
          (create_chrome_text_with_bevel cov w h tx ty)).pix X Y).a = 255) := by
  refine ⟨rfl, fun L X Y => rfl, fun X Y => ?_⟩
  exact overPix_full_base _ _ (overPix_full_base _ _ (overPix_full_base _ _ rfl))

/-- Claim C2, amended: create_rainbow_colored_layer stamps its text mask
at (x + 6, y + 6) and copies gradient pixels through that mask (a pixel
with zero mask coverage stays fully transparent), builds the glow layer by
drawing the identical 1..5 neighborhood offset set (dx, dy in the set of
-m, 0, m for each magnitude m, center excluded) twice in low-alpha white,
where each draw writes its ink interpolated by the glyph coverage into all
channels (at full coverage the ink replaces the previous content, so
overlapping stamps stay at the ink alpha instead of accumulating by
over-compositing), and returns the gradient-text layer composited over the
glow layer with standard alpha over blending. -/
theorem rainbow_layer_spec (cov : ℤ → ℤ → ℚ) (w h : ℕ) (x y : ℤ) :
    create_rainbow_colored_layer cov w h x y =
      alphaComposite (rainbowGlowLayer cov w h x y) (rainbowMaskedText cov w h x y)
  ∧ (∀ X Y : ℤ, (rainbowMaskedText cov w h x y).pix X Y =
      ⟨((rainbowGradient w h).pix X Y).r * cov (X - (x + 6)) (Y - (y + 6)),
       ((rainbowGradient w h).pix X Y).g * cov (X - (x + 6)) (Y - (y + 6)),
       ((rainbowGradient w h).pix X Y).b * cov (X - (x + 6)) (Y - (y + 6)),
       255 * cov (X - (x + 6)) (Y - (y + 6))⟩)
  ∧ rainbowGlowLayer cov w h x y =
      applyStamps cov (x + 6) (y + 6) (newRGBA w h) (rainbowGlowPass ++ rainbowGlowPass)
  ∧ (∀ (cv : ℤ → ℤ → ℚ) (px py : ℤ) (c : RGBA) (img : Img) (X Y : ℤ),
      (drawText cv px py c img).pix X Y =
        writePix (img.pix X Y) c (cv (X - px) (Y - py)))
  ∧ (∀ p c : RGBA, writePix p c 1 = c)
  ∧ rainbowGlowPass =
      (glowOffsets 5).map (fun p => ⟨p.1, p.2, ⟨255, 255, 255, 100⟩⟩)
  ∧ (glowOffsets 5).toFinset = specNbhd 5
  ∧ (glowOffsets 5).Nodup
  ∧ (∀ X Y : ℤ, cov (X - (x + 6)) (Y - (y + 6)) = 0 →
      (rainbowMaskedText cov w h x y).pix X Y = clear) := by
  refine ⟨rfl, fun X Y => rfl, rfl, fun cv px py c img X Y => rfl, writePix_one,
          rfl, by decide, by decide, fun X Y hm => ?_⟩
  simp [rainbowMaskedText, hm, clear]

/-- Claim C2 counterexample: with full glyph coverage everywhere, the glow
canvas the code builds carries alpha 100 at the probe pixel (each draw
replaces the previous content with the ink), while the same stamp sequence
composited in over order, as the original claim asserts, reaches alpha at
least 160 there; the two glow canvases therefore differ. -/
theorem rainbow_glow_not_over_composited :
    (rainbowGlowLayer (fun _ _ => (1 : ℚ)) 20 20 0 0).pix 0 0 = ⟨255, 255, 255, 100⟩
  ∧ 160 ≤ ((specGlowLayerOver (fun _ _ => (1 : ℚ)) 20 20 0 0).pix 0 0).a
  ∧ (rainbowGlowLayer (fun _ _ => (1 : ℚ)) 20 20 0 0).pix 0 0 ≠
      (specGlowLayerOver (fun _ _ => (1 : ℚ)) 20 20 0 0).pix 0 0 := by
  have hcode : (rainbowGlowLayer (fun _ _ => (1 : ℚ)) 20 20 0 0).pix 0 0 =
      ⟨255, 255, 255, 100⟩ := by
    unfold rainbowGlowLayer
    rw [applyStamps_pix]
    simp only [writePix_one]
    rfl
  have hover : 160 ≤ ((specGlowLayerOver (fun _ _ => (1 : ℚ)) 20 20 0 0).pix 0 0).a := by
    unfold specGlowLayerOver
    rw [applyStampsOver_pix]
    show 160 ≤ (List.foldl (fun (q : RGBA) (s : Stamp) => overStampPix q s.ink 1)
        ((newRGBA 20 20).pix 0 0) rainbowGlowStamps).a
    have hall : ∀ s ∈ rainbowGlowStamps, s.ink = ⟨255, 255, 255, 100⟩ := by decide
    obtain ⟨s, t, hst⟩ : ∃ s t, rainbowGlowStamps = s :: t := by
      cases hcase : rainbowGlowStamps with
      | nil => exact absurd hcase (by decide)
      | cons a b => exact ⟨a, b, rfl⟩
    rw [hst] at hall ⊢
    have hs : s.ink = ⟨255, 255, 255, 100⟩ := hall s (List.mem_cons_self s t)
    have ht : ∀ u ∈ t, u.ink = ⟨255, 255, 255, 100⟩ :=
      fun u hu => hall u (List.mem_cons_of_mem s hu)
    have htne : t ≠ [] := by
      intro h0
      have hlen : rainbowGlowStamps.length = 80 := by decide
      rw [hst, h0] at hlen
      simp at hlen
    have hfa : (overStampPix ((newRGBA 20 20).pix 0 0) s.ink 1).a = 100 := by
      rw [hs]
      have h0 : (newRGBA 20 20).pix 0 0 = clear := rfl
      rw [h0, overStampPix_white_alpha clear (by norm_num [clear])]
      norm_num [clear]
    rw [List.foldl_cons]
    exact (over_white_fold_alpha t ht (overStampPix ((newRGBA 20 20).pix 0 0) s.ink 1)
      (le_of_eq hfa.symm) (by rw [hfa]; norm_num)).2 htne
  refine ⟨hcode, hover, fun heq => ?_⟩
  rw [← heq, hcode] at hover
  norm_num at hover

/-- Claim C2 witness: with a coverage that is zero everywhere, the masked
gradient canvas is fully transparent at a concrete pixel. -/
theorem rainbow_layer_spec_witness :
    (rainbowMaskedText (fun _ _ => (0 : ℚ)) 1 1 0 0).pix 9 9 = clear :=
  (rainbow_layer_spec (fun _ _ => (0 : ℚ)) 1 1 0 0).2.2.2.2.2.2.2.2 9 9 rfl

/-- Claim C3, amended: the chrome/bevel layer stamp sequence begins with
exactly one drop-shadow stamp at offset (+3, +5) in translucent black
(0,0,0,200), followed by the 32 low-alpha black (0,0,0,70) inner-glow
stamps covering exactly the 1..4 neighborhood offset set with no
duplicates, followed by exactly one stamp at zero offset in solid opaque
mid-gray (140,140,140,255), in that order; each stamp writes its ink
interpolated by the glyph coverage into all channels of the accumulating
padded layer (at a fully covered pixel it replaces what earlier stamps
drew, rather than alpha-blending over it; not additive either). -/
theorem chrome_layer_stamp_sequence (cov : ℤ → ℤ → ℚ) (w h : ℕ) (x y : ℤ) :
    create_chrome_text_with_bevel cov w h x y =
      cropImg (applyStamps cov (x + 80) (y + 80) (newRGBA (w + 160) (h + 160)) chromeStamps)
        80 80 ((w : ℤ) + 80) ((h : ℤ) + 80)
  ∧ chromeStamps.take 34 =
      ⟨3, 5, ⟨0, 0, 0, 200⟩⟩ :: (chromeGlowStamps ++ [⟨0, 0, ⟨140, 140, 140, 255⟩⟩])
  ∧ chromeGlowStamps = (glowOffsets 4).map (fun p => ⟨p.1, p.2, ⟨0, 0, 0, 70⟩⟩)
  ∧ chromeGlowStamps.length = 32
  ∧ (glowOffsets 4).toFinset = specNbhd 4
  ∧ (glowOffsets 4).Nodup
  ∧ (∀ (cv : ℤ → ℤ → ℚ) (px py : ℤ) (c : RGBA) (img : Img) (X Y : ℤ),
      (drawText cv px py c img).pix X Y =
        writePix (img.pix X Y) c (cv (X - px) (Y - py)))
  ∧ (∀ p c : RGBA, writePix p c 1 = c) := by
  refine ⟨rfl, ?_, rfl, by decide, by decide, by decide,
          fun cv px py c img X Y => rfl, writePix_one⟩
  rfl

/-- Claim C3 counterexample: with full glyph coverage everywhere, the
chrome working surface the code builds ends at alpha 140 at the probe
pixel (the final highlight write replaces everything drawn before, the
opaque base fill included), while compositing the same stamp sequence in
over order, as the original claim asserts, leaves the pixel fully opaque
at alpha 255 from the base fill on; the two surfaces therefore differ. -/
theorem chrome_stamps_not_over_blended :
    ((chromeWorkSurface (fun _ _ => (1 : ℚ)) 1 1 0 0).pix 80 80).a = 140
  ∧ ((specChromeSurfaceOver (fun _ _ => (1 : ℚ)) 1 1 0 0).pix 80 80).a = 255
  ∧ (chromeWorkSurface (fun _ _ => (1 : ℚ)) 1 1 0 0).pix 80 80 ≠
      (specChromeSurfaceOver (fun _ _ => (1 : ℚ)) 1 1 0 0).pix 80 80 := by
  have hc : (chromeWorkSurface (fun _ _ => (1 : ℚ)) 1 1 0 0).pix 80 80 =
      ⟨255, 255, 255, 140⟩ := by
    unfold chromeWorkSurface
    rw [applyStamps_pix]
    simp only [writePix_one]
    rfl
  have ho : ((specChromeSurfaceOver (fun _ _ => (1 : ℚ)) 1 1 0 0).pix 80 80).a = 255 := by
    unfold specChromeSurfaceOver
    rw [applyStampsOver_pix]
    show (List.foldl (fun (q : RGBA) (s : Stamp) => overStampPix q s.ink 1)
        ((newRGBA (1 + 160) (1 + 160)).pix 80 80) chromeStamps).a = 255
    rw [chromeStamps_split, List.foldl_append, List.foldl_cons]
    apply foldl_overStamp_keeps_full
    exact overPix_src_full _ _ (by norm_num)
  refine ⟨by rw [hc], ho, fun heq => ?_⟩
  rw [← heq, hc] at ho
  norm_num at ho

/-- Claim C4: every pixel of the rainbow gradient in column x (identical
for every row) carries the color HSVtoRGB with hue x / width, saturation 1
and value 1, scaled to integers 0..255; column 0 has RGB (255, 0, 0), and
the hue increases strictly monotonically across columns. -/
theorem rainbow_gradient_column_colors (w h : ℕ) (hw : 0 < w) :
    (∀ X Y : ℤ, (rainbowGradient w h).pix X Y = rgbOfTriple (rainbowGradientColor w X.toNat))
  ∧ (∀ x : ℕ, rainbowGradientColor w x = specRainbowColumnColor w x)
  ∧ rainbowGradientColor w 0 = (255, 0, 0)
  ∧ (∀ x1 x2 : ℕ, x1 < x2 → rainbowHue w x1 < rainbowHue w x2) := by
  refine ⟨fun X Y => rfl, fun x => rfl, ?_, fun x1 x2 hx => ?_⟩
  · unfold rainbowGradientColor
    norm_num [hsv_to_rgb, pyInt]
  · have hw0 : (0 : ℚ) < (w : ℚ) := by exact_mod_cast hw
    exact (div_lt_div_iff_of_pos_right hw0).mpr (by exact_mod_cast hx)

/-- Claim C4 witness: at width 2 the first column is pure red and the hue
strictly increases from column 0 to column 1. -/
theorem rainbow_gradient_column_colors_witness :
    rainbowGradientColor 2 0 = (255, 0, 0) ∧ rainbowHue 2 0 < rainbowHue 2 1 :=
  ⟨(rainbow_gradient_column_colors 2 1 (by decide)).2.2.1,
   (rainbow_gradient_column_colors 2 1 (by decide)).2.2.2 0 1 (by decide)⟩

/-- Claim C5: create_colored_shadow_layer returns a canvas-sized RGBA layer
containing exactly one stamp of the text in fully opaque black at
(x + 3, y + 3); a pixel with zero glyph coverage is fully transparent, a
pixel with full glyph coverage is fully opaque black, and the operation is
a total function with no failure modes. -/
theorem shadow_layer_single_black_stamp (cov : ℤ → ℤ → ℚ) (w h : ℕ) (x y : ℤ) :
    create_colored_shadow_layer cov w h x y =
      drawText cov (x + 3) (y + 3) ⟨0, 0, 0, 255⟩ (newRGBA w h)
  ∧ (create_colored_shadow_layer cov w h x y).width = w
  ∧ (create_colored_shadow_layer cov w h x y).height = h
  ∧ (∀ X Y : ℤ, cov (X - (x + 3)) (Y - (y + 3)) = 0 →
      (create_colored_shadow_layer cov w h x y).pix X Y = clear)
  ∧ (∀ X Y : ℤ, cov (X - (x + 3)) (Y - (y + 3)) = 1 →
      (create_colored_shadow_layer cov w h x y).pix X Y = ⟨0, 0, 0, 255⟩) := by
  refine ⟨rfl, rfl, rfl, fun X Y hm => ?_, fun X Y hm => ?_⟩
  · show writePix clear ⟨0, 0, 0, 255⟩ (cov (X - (x + 3)) (Y - (y + 3))) = clear
    rw [hm]
    exact writePix_zero clear ⟨0, 0, 0, 255⟩
  · show writePix clear ⟨0, 0, 0, 255⟩ (cov (X - (x + 3)) (Y - (y + 3))) = ⟨0, 0, 0, 255⟩
    rw [hm]
    exact writePix_one clear ⟨0, 0, 0, 255⟩

/-- Claim C5 witness: with full coverage everywhere the shadow layer pixel
is fully opaque black, and with zero coverage it is fully transparent. -/
theorem shadow_layer_single_black_stamp_witness :
    (create_colored_shadow_layer (fun _ _ => (1 : ℚ)) 1 1 0 0).pix 0 0 = ⟨0, 0, 0, 255⟩
  ∧ (create_colored_shadow_layer (fun _ _ => (0 : ℚ)) 1 1 0 0).pix 0 0 = clear :=
  ⟨(shadow_layer_single_black_stamp (fun _ _ => (1 : ℚ)) 1 1 0 0).2.2.2.2 0 0 rfl,
   (shadow_layer_single_black_stamp (fun _ _ => (0 : ℚ)) 1 1 0 0).2.2.2.1 0 0 rfl⟩

/-- Claim C6: every generated layer of the pipeline has pixel dimensions
exactly (w, h); the chrome layer is built on a working surface padded by
the fixed margin 80 on each side and cropped back to (w, h); and the final
output image has type ImgRGB (no alpha channel) with dimensions exactly
(w, h). -/
theorem layer_and_output_dimensions (cov : ℤ → ℤ → ℚ) (w h : ℕ) (x y tx ty : ℤ) :
    (create_chrome_text_with_bevel cov w h x y).width = w
  ∧ (create_chrome_text_with_bevel cov w h x y).height = h
  ∧ (chromeWorkSurface cov w h x y).width = w + 160
  ∧ (chromeWorkSurface cov w h x y).height = h + 160
  ∧ create_chrome_text_with_bevel cov w h x y =
      cropImg (chromeWorkSurface cov w h x y) 80 80 ((w : ℤ) + 80) ((h : ℤ) + 80)
  ∧ (create_colored_shadow_layer cov w h x y).width = w
  ∧ (create_colored_shadow_layer cov w h x y).height = h
  ∧ (create_rainbow_colored_layer cov w h x y).width = w
  ∧ (create_rainbow_colored_layer cov w h x y).height = h
  ∧ (setup_background w h).width = w
  ∧ (setup_background w h).height = h
  ∧ (create_daft_punk_effect cov w h tx ty).width = w
  ∧ (create_daft_punk_effect cov w h tx ty).height = h := by
  refine ⟨?_, ?_, ?_, ?_, rfl, rfl, rfl, ?_, ?_, rfl, rfl, rfl, rfl⟩
  · unfold create_chrome_text_with_bevel cropImg
    dsimp only
    omega
  · unfold create_chrome_text_with_bevel cropImg
    dsimp only
    omega
  · unfold chromeWorkSurface
    rw [applyStamps_width]
    rfl
  · unfold chromeWorkSurface
    rw [applyStamps_height]
    rfl
  · unfold create_rainbow_colored_layer alphaComposite
    dsimp only
    unfold rainbowGlowLayer
    rw [applyStamps_width]
    rfl
  · unfold create_rainbow_colored_layer alphaComposite
    dsimp only
    unfold rainbowGlowLayer
    rw [applyStamps_height]
    rfl

/-- Claim C7: the text pipeline is deterministic in the ambient random
stream: two runs with identical text, font and position but arbitrary
different random streams produce identical pixel output; randomness enters
the model only through generate_noise_texture (the unused noise-texture
fallback), whose raw array genuinely depends on the stream. -/
theorem pipeline_ignores_randomness (rng1 rng2 : RNG) (fs : String → Bool)
    (tload : String → ℕ → Except String Unit) (raster : Font → ℤ → ℤ → ℚ)
    (bbox : Font → ℤ × ℤ × ℤ × ℤ) (w h : ℕ) (fontPath : String) :
    run_daft_punk_effect rng1 fs tload raster bbox w h fontPath =
      run_daft_punk_effect rng2 fs tload raster bbox w h fontPath
  ∧ (∀ blur rng w0 h0, generate_noise_texture blur rng w0 h0 = blur (noiseArray rng w0 h0) 2)
  ∧ (noiseArray (fun _ => 0) 1 1).pix 0 0 = ⟨0, 0, 0⟩
  ∧ (noiseArray (fun _ => 1) 1 1).pix 0 0 = ⟨1, 1, 1⟩ := by
  refine ⟨?_, fun blur rng w0 h0 => rfl, ?_, ?_⟩
  · unfold run_daft_punk_effect
    rfl
  · simp [noiseArray]
  · simp [noiseArray]

/-- Claim C8: if the font file path does not exist, load_font logs the
warning and returns the built-in default font (no exception reaches the
caller: load_font is a total function), and effect generation still
completes, returning an image with the requested dimensions. -/
theorem load_font_missing_file (fs : String → Bool)
    (tload : String → ℕ → Except String Unit) (raster : Font → ℤ → ℤ → ℚ)
    (bbox : Font → ℤ × ℤ × ℤ × ℤ) (rng : RNG) (w h : ℕ) (path : String) (size : ℕ)
    (hmiss : fs path = false) :
    load_font fs tload path size =
      (["Font file " ++ path ++ " not found, using default font"], Font.defaultFont)
  ∧ (run_daft_punk_effect rng fs tload raster bbox w h path).width = w
  ∧ (run_daft_punk_effect rng fs tload raster bbox w h path).height = h := by
  refine ⟨?_, rfl, rfl⟩
  simp [load_font, hmiss]

/-- Claim C8 witness: with a filesystem on which no path exists, load_font
returns the default font with the warning, at concrete inputs. -/
theorem load_font_missing_file_witness :
    load_font (fun _ => false) (fun _ _ => Except.ok ()) (String.mk ['f']) 1 =
      (["Font file " ++ String.mk ['f'] ++ " not found, using default font"],
       Font.defaultFont) :=
  (load_font_missing_file (fun _ => false) (fun _ _ => Except.ok ())
    (fun _ _ _ => 0) (fun _ => (0, 0, 0, 0)) (fun _ => 0) 1 1 (String.mk ['f']) 1 rfl).1

/-- Claim C9: in the 3D viewer, an exception raised anywhere inside the try
block of load_texture or of load_env_texture (in particular a network
failure on a URL path) is caught and logged, and the function returns the
procedurally generated fallback texture instead; on success the loaded
texture is returned; either way the functions are total and no exception
propagates. -/
theorem texture_loaders_catch_errors (net fsOpen : List Char → Except String RawImg)
    (resize : RawImg → RawImg) (path : List Char) :
    (∀ e, load_texture_attempt net fsOpen path = Except.error e →
        load_texture net fsOpen path =
          (["Failed to load texture from " ++ String.mk path ++ ": " ++ e ++
              ", using fallback."],
           fallback_texture))
  ∧ (∀ t, load_texture_attempt net fsOpen path = Except.ok t →
        load_texture net fsOpen path = ([], t))
  ∧ (∀ e, strStarts httpColon path = true → net path = Except.error e →
        load_texture net fsOpen path =
          (["Failed to load texture from " ++ String.mk path ++ ": " ++ e ++
              ", using fallback."],
           fallback_texture))
  ∧ (∀ e, load_env_texture_attempt net fsOpen resize path = Except.error e →
        load_env_texture net fsOpen resize path =
          (["Failed to load environment texture from URL: " ++ e ++ ", using fallback."],
           env_fallback_texture))
  ∧ (∀ t, load_env_texture_attempt net fsOpen resize path = Except.ok t →
        load_env_texture net fsOpen resize path = ([], t))
  ∧ (∀ e, strStarts httpsColon path = true → net path = Except.error e →
        load_env_texture net fsOpen resize path =
          (["Failed to load environment texture from URL: " ++ e ++ ", using fallback."],
           env_fallback_texture)) := by
  refine ⟨fun e he => ?_, fun t ht => ?_, fun e hb hn => ?_,
          fun e he => ?_, fun t ht => ?_, fun e hb hn => ?_⟩
  · simp [load_texture, he]
  · simp [load_texture, ht]
  · simp [load_texture, load_texture_attempt, hb, hn]
  · simp [load_env_texture, he]
  · simp [load_env_texture, ht]
  · simp [load_env_texture, load_env_texture_attempt, hb, hn]

/-- Claim C9 witness: a concrete network failure on an http URL makes
load_texture return the red fallback texture with the logged message. -/
theorem texture_loaders_catch_errors_witness :
    load_texture (fun _ => Except.error (String.mk ['n']))
        (fun _ => Except.error (String.mk ['o'])) (httpColon ++ ['u']) =
      (["Failed to load texture from " ++ String.mk (httpColon ++ ['u']) ++ ": " ++
          String.mk ['n'] ++ ", using fallback."],
       fallback_texture) :=
  (texture_loaders_catch_errors (fun _ => Except.error (String.mk ['n']))
    (fun _ => Except.error (String.mk ['o'])) (fun i => i)
    (httpColon ++ ['u'])).2.2.1 (String.mk ['n']) (by decide) rfl

/-- Claim C10: load_texture treats its path as a URL only under the prefix
"http:" and load_env_texture only under "https:", so a path beginning with
"https:" given to load_texture, or beginning with "http:" given to
load_env_texture, is opened as a local file: the result does not depend on
the network oracle at all, a successful local open is returned uploaded,
and a failed local open falls back to the generated texture. -/
theorem url_scheme_asymmetry (net net2 fsOpen : List Char → Except String RawImg)
    (resize : RawImg → RawImg) (rest : List Char) :
    load_texture net fsOpen (httpsColon ++ rest) =
      load_texture net2 fsOpen (httpsColon ++ rest)
  ∧ (∀ img, fsOpen (httpsColon ++ rest) = Except.ok img →
      load_texture net fsOpen (httpsColon ++ rest) = ([], uploadTex img))
  ∧ (∀ e, fsOpen (httpsColon ++ rest) = Except.error e →
      load_texture net fsOpen (httpsColon ++ rest) =
        (["Failed to load texture from " ++ String.mk (httpsColon ++ rest) ++ ": " ++ e ++
            ", using fallback."],
         fallback_texture))
  ∧ load_env_texture net fsOpen resize (httpColon ++ rest) =
      load_env_texture net2 fsOpen resize (httpColon ++ rest)
  ∧ (∀ img, fsOpen (httpColon ++ rest) = Except.ok img →
      load_env_texture net fsOpen resize (httpColon ++ rest) =
        ([], uploadEnv (resize img)))
  ∧ (∀ e, fsOpen (httpColon ++ rest) = Except.error e →
      load_env_texture net fsOpen resize (httpColon ++ rest) =
        (["Failed to load environment texture from URL: " ++ e ++ ", using fallback."],
         env_fallback_texture)) := by
  have hb1 := strStarts_https_not_http rest
  have hb2 := strStarts_http_not_https rest
  refine ⟨?_, fun img hf => ?_, fun e hf => ?_, ?_, fun img hf => ?_, fun e hf => ?_⟩
  · simp [load_texture, load_texture_attempt, hb1]
  · simp [load_texture, load_texture_attempt, hb1, hf]
  · simp [load_texture, load_texture_attempt, hb1, hf]
  · simp [load_env_texture, load_env_texture_attempt, hb2]
  · simp [load_env_texture, load_env_texture_attempt, hb2, hf]
  · simp [load_env_texture, load_env_texture_attempt, hb2, hf]

/-- Claim C10 witness: at a concrete https path, a failing local open
makes load_texture fall back even though the network oracle would have
succeeded. -/
theorem url_scheme_asymmetry_witness :
    load_texture (fun _ => Except.ok fallback_texture)
        (fun _ => Except.error (String.mk ['x'])) (httpsColon ++ ['u']) =
      (["Failed to load texture from " ++ String.mk (httpsColon ++ ['u']) ++ ": " ++
          String.mk ['x'] ++ ", using fallback."],
       fallback_texture) :=
  (url_scheme_asymmetry (fun _ => Except.ok fallback_texture)
    (fun _ => Except.error (String.mk ['n'])) (fun _ => Except.error (String.mk ['x']))
    (fun i => i) ['u']).2.2.1 (String.mk ['x']) rfl

end DaftPunk
